import Mathlib

/-!
Shallow embedding of `rplugin/python3/defx/view.py` (the View orchestration
engine of a multi-root file-tree browser) and verification of its
specification claims.

Python dictionaries holding a candidate row are modelled by the `Candidate`
structure; the `action__path` key is the `action_path` field and the
`_defx_index` key is the `defx_index` field.  Python exceptions (KeyError on
an empty dict, IndexError on list indexing) are modelled by explicit error
results (`Option`, `CursorRes.failure`, `Res.err`).
-/

namespace DefxView

/-- One visible row, as produced by a tree session and tagged by the View. -/
structure Candidate where
  action_path : String
  defx_index : Nat
  is_selected : Bool
deriving DecidableEq, Repr

/-- The mutable per-session state stored on a `Defx` object that `view.py`
reads and writes: its stable `_index`, its current root `_cwd`, and its
`_cursor_history` dictionary (modelled as an association list). -/
structure DefxState where
  index : Nat
  cwd : String
  cursor_history : List (String × String)
deriving DecidableEq, Repr

/-- Modelled from the spec: the Tree Session collaborator (class `Defx` is
repository code outside `src/`).  Per the external-interface contract it
supplies `getRootCandidate()`, `gatherCandidates()` (the flattened visible
descendants), and `changeRoot(path) → success|failure`; here each is a
function of the session index and the session's current root. -/
structure Fs where
  root_of : Nat → String → Candidate
  children_of : Nat → String → List Candidate
  cd_ok : Nat → String → Bool

/-- The View state mutated by `view.py`: the owned sessions, the aggregated
candidate sequence, the selected positions, plus the host-surface facts the
code consults (cursor line, whether the current buffer is the defx buffer)
and the lines last pushed to the display. -/
structure ViewState where
  defxs : List DefxState
  candidates : List Candidate
  selected_candidates : List Nat
  cursor_line : Nat
  filetype_is_defx : Bool
  displayed : List Candidate
deriving DecidableEq, Repr

/-- Setting `candidate['_defx_index'] = defx._index` (view.py line 103). -/
def tag (i : Nat) (c : Candidate) : Candidate := { c with defx_index := i }

/-- One session's contribution: `[defx.get_root_candidate()] +
defx.gather_candidates()`, each entry tagged with the session index
(view.py lines 100-103). -/
def session_candidates (fs : Fs) (d : DefxState) : List Candidate :=
  (fs.root_of d.index d.cwd :: fs.children_of d.index d.cwd).map (tag d.index)

/-- The concatenation loop of `View.init_candidates` (view.py lines 98-104). -/
def build_candidates (fs : Fs) : List DefxState → List Candidate
  | [] => []
  | d :: rest => session_candidates fs d ++ build_candidates fs rest

/-- One iteration of the selection-mask loop:
`self._candidates[index]['is_selected'] = True` (view.py line 108).
Python list indexing raises IndexError when the index is out of range,
modelled by `none`. -/
def set_selected (cands : List Candidate) (i : Nat) : Option (List Candidate) :=
  if h : i < cands.length then
    some (cands.set i { cands.get ⟨i, h⟩ with is_selected := true })
  else none

/-- The selection-mask loop of `View.init_candidates`
(view.py lines 107-108), applied position by position. -/
def apply_selection : List Nat → List Candidate → Option (List Candidate)
  | [], cands => some cands
  | i :: rest, cands =>
    match set_selected cands i with
    | some cands2 => apply_selection rest cands2
    | none => none

/-- `View.init_candidates` (view.py lines 97-108): rebuild the aggregated
sequence from all sessions, then apply the persisted selection mask. -/
def init_candidates (fs : Fs) (defxs : List DefxState) (sel : List Nat) :
    Option (List Candidate) :=
  apply_selection sel (build_candidates fs defxs)

/-- Result of `View.get_cursor_candidate`: either a candidate dict, the
empty dict `\x7b\x7d` (`absent`), or a raised IndexError (`failure`). -/
inductive CursorRes where
  | found : Candidate → CursorRes
  | absent : CursorRes
  | failure : CursorRes
deriving DecidableEq, Repr

/-- `View.get_cursor_candidate` (view.py lines 142-146):
`if len(self._candidates) < cursor: return \x7b\x7d else return
self._candidates[cursor - 1]`.  For `cursor = 0` the Python index is `-1`,
which selects the last element (IndexError on an empty list). -/
def get_cursor_candidate (cands : List Candidate) (cursor : Nat) : CursorRes :=
  if cands.length < cursor then .absent
  else
    match (if cursor = 0 then cands.getLast? else cands.get? (cursor - 1)) with
    | some c => .found c
    | none => .failure

/-- The scanning loop of `View.search_file` (view.py lines 169-175), with
the running `linenr` counter. -/
def locate_from (path : String) (index : Nat) :
    List Candidate → Nat → Option Nat
  | [], _ => none
  | c :: rest, linenr =>
    if c.defx_index = index ∧ c.action_path = path then some linenr
    else locate_from path index rest (linenr + 1)

/-- The line number `View.search_file` would move the cursor to
(starting the scan at line 1), or `none` when no candidate matches. -/
def locate (cands : List Candidate) (path : String) (index : Nat) :
    Option Nat :=
  locate_from path index cands 1

/-- `View.search_file` (view.py lines 168-175) as a state transformer: the
only effect is the `cursor` call when a match is found. -/
def search_file (st : ViewState) (path : String) (index : Nat) : ViewState :=
  match locate st.candidates path index with
  | some n => { st with cursor_line := n }
  | none => st

/-- Python dict assignment `history[key] = value` on an association list. -/
def hset (k v : String) : List (String × String) → List (String × String)
  | [] => [(k, v)]
  | (k2, v2) :: rest => if k2 = k then (k, v) :: rest else (k2, v2) :: hset k v rest

/-- Python dict membership and lookup `history[key]` on an association list. -/
def hget (k : String) : List (String × String) → Option String
  | [] => none
  | (k2, v2) :: rest => if k2 = k then some v2 else hget k rest

/-- Outcome of a View operation: normal return, or a propagated Python
exception together with the state at the moment it was raised (mutations
already performed persist). -/
inductive Res where
  | ok : ViewState → Res
  | err : ViewState → Res
deriving DecidableEq, Repr

/-- The body of `View.redraw` after the previous-candidate capture
(view.py lines 121-131): on force, clear the selection and rebuild the
aggregated sequence (`init_candidates` then runs its mask loop over the
just-cleared, hence empty, selection set), then push the lines. -/
def redraw_body (fs : Fs) (st : ViewState) (is_force : Bool) : ViewState :=
  let st1 := if is_force then
      { st with selected_candidates := [],
                candidates := build_candidates fs st.defxs }
    else st
  { st1 with displayed := st1.candidates }

/-- `View.redraw` (view.py lines 110-134): no-op when the current buffer is
not the defx buffer; capture the candidate under the cursor before any
mutation; on force clear selection and rebuild; push lines; if a previous
candidate was captured (a non-empty dict), relocate the cursor to it. -/
def redraw (fs : Fs) (st : ViewState) (is_force : Bool) : Res :=
  if st.filetype_is_defx = false then .ok st
  else
    match get_cursor_candidate st.candidates st.cursor_line with
    | .failure => .err st
    | .absent => .ok (redraw_body fs st is_force)
    | .found c =>
        .ok (search_file (redraw_body fs st is_force) c.action_path c.defx_index)

/-- `View.cd` (view.py lines 157-166).  The history write
`history[defx._cwd] = self.get_cursor_candidate(cursor)['action__path']`
evaluates its right-hand side first: an empty dict raises KeyError before
anything is written.  Only then is the session's root changed (which may
fail), followed by a forced redraw, the history-based cursor restore, and
the unconditional selection clear.  Helper records model the mutations of
the shared `Defx` object. -/
def with_history (d : DefxState) (p : String) : DefxState :=
  { d with cursor_history := hset d.cwd p d.cursor_history }

/-- The session record after `defx.cd(path)` succeeds: the new root. -/
def with_root (d : DefxState) (path : String) : DefxState :=
  { d with cwd := path }

/-- `View.cd`, assembled from the pieces documented above. -/
def cd (fs : Fs) (st : ViewState) (di : Nat) (path : String) (cursor : Nat) :
    Res :=
  match st.defxs.get? di with
  | none => .err st
  | some d =>
    match get_cursor_candidate st.candidates cursor with
    | .failure => .err st
    | .absent => .err st
    | .found c =>
      if fs.cd_ok d.index path = false then
        .err { st with defxs := st.defxs.set di (with_history d c.action_path) }
      else
        match redraw fs
            { st with defxs :=
                st.defxs.set di (with_root (with_history d c.action_path) path) }
            true with
        | .err s => .err s
        | .ok st3 =>
          match hget path (hset d.cwd c.action_path d.cursor_history) with
          | some p =>
            .ok { (search_file st3 p d.index) with selected_candidates := [] }
          | none => .ok { st3 with selected_candidates := [] }

/-- `View.get_selected_candidates` (view.py lines 148-155).  With no
multi-selection the single cursor candidate is used (the empty dict makes
the `_defx_index` filter raise KeyError); with a multi-selection each
stored position indexes `_candidates` (IndexError when out of range). -/
def get_selected_candidates (cands : List Candidate) (sel : List Nat)
    (cursor : Nat) (index : Nat) : Option (List Candidate) :=
  if sel = [] then
    match get_cursor_candidate cands cursor with
    | .found c => some (if c.defx_index = index then [c] else [])
    | _ => none
  else
    match sel.mapM (fun x => cands.get? x) with
    | some cs => some (cs.filter (fun c => c.defx_index == index))
    | none => none

/-- The per-session loop of `View.do_action` (view.py lines 188-197),
returning the list of Action Dispatcher invocations (session index paired
with its target candidates); sessions with no targets are skipped. -/
def do_action_loop (cands : List Candidate) (sel : List Nat) (cursor : Nat) :
    List DefxState → Option (List (Nat × List Candidate))
  | [] => some []
  | d :: rest =>
    match get_selected_candidates cands sel cursor d.index with
    | none => none
    | some ts =>
      if ts = [] then do_action_loop cands sel cursor rest
      else
        match do_action_loop cands sel cursor rest with
        | some out => some ((d.index, ts) :: out)
        | none => none

/-- `View.do_action` (view.py lines 177-197): no-op on an empty aggregated
sequence, otherwise run the per-session dispatch loop. -/
def do_action (st : ViewState) (cursor : Nat) :
    Option (List (Nat × List Candidate)) :=
  if st.candidates = [] then some []
  else do_action_loop st.candidates st.selected_candidates cursor st.defxs

/-- The column-span loop of `View.__init__` (view.py lines 38-44):
`column.start = start; column.end = start + column.length() - 1;
start += column.length()`.  Each column's declared width (its `length()`,
column code outside `src/`) is taken as an input. -/
def spans_from (start : Nat) : List Nat → List (Nat × Nat)
  | [] => []
  | w :: rest => (start, start + w - 1) :: spans_from (start + w) rest

/-- The spans computed at View construction for an ordered list of active
columns with the given declared widths, starting at offset 1. -/
def compute_spans (widths : List Nat) : List (Nat × Nat) :=
  spans_from 1 widths

/-- The expected 1-based start offset of column `i`: one plus the sum of
the widths of the preceding columns. -/
def start_off (widths : List Nat) (i : Nat) : Nat :=
  1 + (widths.take i).sum

/-- The expected 1-based end offset of column `i`. -/
def end_off (widths : List Nat) (i : Nat) : Nat :=
  start_off widths i + widths.getD i 0 - 1

/-! Concrete fixtures: the two-session scenario of the spec ( `/a` with
children `/a/1`, `/a/2`; `/b` with child `/b/1` ).  Candidates arrive from
the sessions with a placeholder `defx_index` of 99, so that the tagging
performed by `init_candidates` is observable in the results. -/

/-- An untagged, unselected candidate row for a path. -/
def cand (p : String) (i : Nat) : Candidate :=
  { action_path := p, defx_index := i, is_selected := false }

/-- The demo filesystem: roots render as themselves, `/a` has two children,
`/b` has one, and every root change succeeds except to `/bad`. -/
def fsAB : Fs where
  root_of := fun _ cwd => cand cwd 99
  children_of := fun _ cwd =>
    if cwd = "/a" then [cand "/a/1" 99, cand "/a/2" 99]
    else if cwd = "/b" then [cand "/b/1" 99]
    else []
  cd_ok := fun _ p => !(p == "/bad")

/-- Session 0, rooted at `/a`, with empty cursor history. -/
def sessA : DefxState := { index := 0, cwd := "/a", cursor_history := [] }

/-- Session 1, rooted at `/b`, with empty cursor history. -/
def sessB : DefxState := { index := 1, cwd := "/b", cursor_history := [] }

/-- The aggregated sequence of the two-session scenario. -/
def candsAB : List Candidate := build_candidates fsAB [sessA, sessB]

/-- A healthy single-session View state on root `/a` (cursor on line 1,
defx buffer current, no multi-selection). -/
def stA : ViewState :=
  { defxs := [sessA]
    candidates := build_candidates fsAB [sessA]
    selected_candidates := []
    cursor_line := 1
    filetype_is_defx := true
    displayed := build_candidates fsAB [sessA] }

/-- The two-session View state with the cursor on line 4 (the root row of
session 1). -/
def stAB : ViewState :=
  { defxs := [sessA, sessB]
    candidates := candsAB
    selected_candidates := []
    cursor_line := 4
    filetype_is_defx := true
    displayed := candsAB }

/-- A state whose current buffer is not the defx buffer, carrying a stale
multi-selection. -/
def stForeign : ViewState :=
  { stA with filetype_is_defx := false, selected_candidates := [0] }

/-! Lemmas about the selection-mask loop. -/

theorem set_selected_length {cands : List Candidate} {i : Nat}
    {out : List Candidate} (h : set_selected cands i = some out) :
    out.length = cands.length := by
  unfold set_selected at h
  split at h
  · cases h
    simp
  · cases h

theorem apply_selection_length {sel : List Nat} :
    ∀ {cands out : List Candidate}, apply_selection sel cands = some out →
      out.length = cands.length := by
  induction sel with
  | nil =>
    intro cands out h
    cases h
    rfl
  | cons i rest ih =>
    intro cands out h
    unfold apply_selection at h
    split at h
    · next cands2 hset2 =>
      exact (ih h).trans (set_selected_length hset2)
    · cases h

theorem apply_selection_isSome {sel : List Nat} :
    ∀ {cands : List Candidate},
      (apply_selection sel cands).isSome ↔ ∀ i ∈ sel, i < cands.length := by
  induction sel with
  | nil =>
    intro cands
    simp [apply_selection]
  | cons i rest ih =>
    intro cands
    unfold apply_selection
    constructor
    · intro h j hj
      rcases List.mem_cons.mp hj with hj | hj
      · subst hj
        by_contra hlt
        simp [set_selected, hlt] at h
      · rcases hlt : decide (i < cands.length) with _ | _
        · simp [set_selected, of_decide_eq_false hlt] at h
        · have hi := of_decide_eq_true hlt
          simp only [set_selected, dif_pos hi] at h
          have := ih.mp h j hj
          simpa [List.length_set] using this
    · intro h
      have hi : i < cands.length := h i (List.mem_cons_self i rest)
      simp only [set_selected, dif_pos hi]
      apply ih.mpr
      intro j hj
      simpa [List.length_set] using h j (List.mem_cons_of_mem i hj)

/-- Position `i` of the list holds a candidate marked selected. -/
def markedAt (l : List Candidate) (i : Nat) : Prop :=
  ∀ c, l[i]? = some c → c.is_selected = true

theorem set_selected_markedAt_self {cands : List Candidate} {i : Nat}
    {out : List Candidate} (h : set_selected cands i = some out) :
    markedAt out i := by
  unfold set_selected at h
  split at h
  · next hi =>
    cases h
    intro c hc
    rw [List.getElem?_set_self hi] at hc
    cases hc
    rfl
  · cases h

theorem set_selected_markedAt_mono {cands : List Candidate} {i j : Nat}
    {out : List Candidate} (h : set_selected cands j = some out)
    (hm : markedAt cands i) : markedAt out i := by
  unfold set_selected at h
  split at h
  · next hj =>
    cases h
    intro c hc
    by_cases hij : j = i
    · subst hij
      rw [List.getElem?_set_self hj] at hc
      cases hc
      rfl
    · rw [List.getElem?_set_ne hij] at hc
      exact hm c hc
  · cases h

theorem apply_selection_markedAt_mono {sel : List Nat} :
    ∀ {cands out : List Candidate} {i : Nat},
      apply_selection sel cands = some out → markedAt cands i →
        markedAt out i := by
  induction sel with
  | nil =>
    intro cands out i h hm
    cases h
    exact hm
  | cons j rest ih =>
    intro cands out i h hm
    unfold apply_selection at h
    split at h
    · next cands2 hset2 =>
      exact ih h (set_selected_markedAt_mono hset2 hm)
    · cases h

theorem apply_selection_markedAt_mem {sel : List Nat} :
    ∀ {cands out : List Candidate} {i : Nat},
      apply_selection sel cands = some out → i ∈ sel → markedAt out i := by
  induction sel with
  | nil =>
    intro cands out i h hi
    cases hi
  | cons j rest ih =>
    intro cands out i h hi
    unfold apply_selection at h
    split at h
    · next cands2 hset2 =>
      rcases List.mem_cons.mp hi with hij | hirest
      · subst hij
        exact apply_selection_markedAt_mono h (set_selected_markedAt_self hset2)
      · exact ih h hirest
    · cases h

/-- C1: the selection mask applied by `init_candidates` marks every
position of the previous selection set that is in range of the fresh
sequence, but the projection has no range check: the rebuild fails
(Python IndexError) as soon as some stale position is out of range of the
freshly built sequence. -/
theorem C1_selection_mask_projection (fs : Fs) (defxs : List DefxState)
    (sel : List Nat) :
    ((∀ i ∈ sel, i < (build_candidates fs defxs).length) →
      ∃ out, init_candidates fs defxs sel = some out ∧
        out.length = (build_candidates fs defxs).length ∧
        ∀ i ∈ sel, ∀ c, out[i]? = some c → c.is_selected = true) ∧
    ((¬ ∀ i ∈ sel, i < (build_candidates fs defxs).length) →
      init_candidates fs defxs sel = none) := by
  constructor
  · intro h
    have hs : (apply_selection sel (build_candidates fs defxs)).isSome :=
      apply_selection_isSome.mpr h
    rcases Option.isSome_iff_exists.mp hs with ⟨out, hout⟩
    refine ⟨out, hout, apply_selection_length hout, ?_⟩
    intro i hi c hc
    exact apply_selection_markedAt_mem hout hi c hc
  · intro h
    have : ¬ (apply_selection sel (build_candidates fs defxs)).isSome := by
      intro hs
      exact h (apply_selection_isSome.mp hs)
    exact Option.not_isSome_iff_eq_none.mp this

/-- C1 counterexample: a rebuild producing three candidates, with stale
selection position 3; the rebuild fails (IndexError) instead of skipping
the out-of-range position. -/
theorem C1_stale_selection_fails :
    init_candidates fsAB [sessA] [3] = none := by decide

/-- C1 witness: for selection position 1 (in range of the three rebuilt
candidates) the rebuild succeeds and marks that candidate selected. -/
theorem C1_selection_mask_projection_witness :
    ∃ out, init_candidates fsAB [sessA] [1] = some out ∧
      out.length = (build_candidates fsAB [sessA]).length ∧
      ∀ i ∈ [1], ∀ c, out[i]? = some c → c.is_selected = true :=
  (C1_selection_mask_projection fsAB [sessA] [1]).1 (by decide)

/-! Lemmas about `search_file` and the cd and redraw operations. -/

theorem search_file_selected_candidates (st : ViewState) (path : String)
    (index : Nat) :
    (search_file st path index).selected_candidates = st.selected_candidates := by
  unfold search_file
  split <;> rfl

/-- C2: when the cursor line exceeds the aggregated sequence length,
`get_cursor_candidate` returns the empty dict and the history write
`history[defx._cwd] = \x7b\x7d['action__path']` raises KeyError before
anything is written: `cd` fails with the View state unchanged, rather
than skipping the history-recording step and completing.  History is
written only when a candidate is actually under the cursor. -/
theorem C2_cd_out_of_range_cursor (fs : Fs) (st : ViewState) (di : Nat)
    (path : String) (cursor : Nat) (h : st.candidates.length < cursor) :
    cd fs st di path cursor = Res.err st := by
  have habs : get_cursor_candidate st.candidates cursor = CursorRes.absent := by
    unfold get_cursor_candidate
    rw [if_pos h]
  unfold cd
  cases hdi : st.defxs.get? di with
  | none => rfl
  | some d => simp [habs]

/-- C2 counterexample: with three candidates and cursor line 4 there is no
candidate under the cursor, and `cd` raises (returns an error) instead of
completing with the history step skipped. -/
theorem C2_cd_raises_concretely :
    stA.candidates.length < 4 ∧ cd fsAB stA 0 "/b" 4 = Res.err stA :=
  ⟨by decide, by rfl⟩

/-- C2 witness: the amended behaviour at a concrete out-of-range cursor. -/
theorem C2_cd_out_of_range_cursor_witness :
    cd fsAB stA 0 "/b" 5 = Res.err stA :=
  C2_cd_out_of_range_cursor fsAB stA 0 "/b" 5 (by decide)

/-- The state `View.cd` has built at the moment a root change fails: the
session's cursor history has already received the entry for the old root. -/
def cd_failed_state (st : ViewState) (di : Nat) (d : DefxState)
    (p : String) : ViewState :=
  { st with defxs := st.defxs.set di (with_history d p) }

/-- C3: when the Tree Session rejects the root change, `cd` performs no
redraw and leaves the selection set, displayed content, cursor and
aggregated sequence unchanged, and it surfaces the failure — but the
History Store is NOT left unchanged: the entry for the old root (the
cursor candidate's path) was written before the root change was
attempted, and it persists in the surfaced error state. -/
theorem C3_cd_rejected_root_change (fs : Fs) (st : ViewState) (di : Nat)
    (path : String) (cursor : Nat) (d : DefxState) (c : Candidate)
    (hd : st.defxs[di]? = some d)
    (hc : get_cursor_candidate st.candidates cursor = CursorRes.found c)
    (hfail : fs.cd_ok d.index path = false) :
    cd fs st di path cursor =
      Res.err (cd_failed_state st di d c.action_path) ∧
    (cd_failed_state st di d c.action_path).selected_candidates =
      st.selected_candidates ∧
    (cd_failed_state st di d c.action_path).displayed = st.displayed ∧
    (cd_failed_state st di d c.action_path).cursor_line = st.cursor_line ∧
    (cd_failed_state st di d c.action_path).candidates = st.candidates := by
  refine ⟨?_, rfl, rfl, rfl, rfl⟩
  unfold cd
  simp [hd, hc, hfail, cd_failed_state]

/-- The concrete error state surfaced by `cd` when changing session 0's
root from `/a` to the rejected path `/bad`. -/
def sessAbad : DefxState :=
  { index := 0, cwd := "/a", cursor_history := [("/a", "/a")] }

/-- The full error state surfaced by that failing root change. -/
def stAbad : ViewState := { stA with defxs := [sessAbad] }

/-- C3 counterexample: a rejected root change surfaces the failure without
redraw, but the History Store differs from its pre-call value — the old
root now maps to the path that was under the cursor. -/
theorem C3_history_mutated_on_failure :
    cd fsAB stA 0 "/bad" 1 = Res.err stAbad ∧ stAbad.defxs ≠ stA.defxs :=
  ⟨by rfl, by decide⟩

/-- C3 witness: the amended behaviour at the same concrete input. -/
theorem C3_cd_rejected_root_change_witness :
    cd fsAB stA 0 "/bad" 1 =
      Res.err (cd_failed_state stA 0 sessA "/a") ∧
    (cd_failed_state stA 0 sessA "/a").selected_candidates =
      stA.selected_candidates ∧
    (cd_failed_state stA 0 sessA "/a").displayed = stA.displayed ∧
    (cd_failed_state stA 0 sessA "/a").cursor_line = stA.cursor_line ∧
    (cd_failed_state stA 0 sessA "/a").candidates = stA.candidates :=
  C3_cd_rejected_root_change fsAB stA 0 "/bad" 1 sessA (cand "/a" 0)
    (by rfl) (by rfl) (by rfl)

/-- C5: forced redraws that proceed (the current buffer is the defx
buffer) leave an empty selection set, and every `cd` call that completes
leaves an empty selection set; but a forced redraw issued while another
buffer is current is a no-op that does NOT clear a stale multi-selection
(see the counterexample). -/
theorem C5_selection_clearing :
    (∀ (fs : Fs) (st st2 : ViewState), st.filetype_is_defx = true →
      redraw fs st true = Res.ok st2 → st2.selected_candidates = []) ∧
    (∀ (fs : Fs) (st : ViewState) (di : Nat) (path : String) (cursor : Nat)
      (st3 : ViewState), cd fs st di path cursor = Res.ok st3 →
      st3.selected_candidates = []) := by
  constructor
  · intro fs st st2 h1 h2
    unfold redraw at h2
    rw [h1] at h2
    simp only [Bool.true_eq_false, if_false] at h2
    split at h2
    · exact Res.noConfusion h2
    · injection h2 with h2
      subst h2
      simp [redraw_body]
    · injection h2 with h2
      subst h2
      rw [search_file_selected_candidates]
      simp [redraw_body]
  · intro fs st di path cursor st3 h3
    unfold cd at h3
    split at h3
    · exact Res.noConfusion h3
    · split at h3
      · exact Res.noConfusion h3
      · exact Res.noConfusion h3
      · split at h3
        · exact Res.noConfusion h3
        · split at h3
          · exact Res.noConfusion h3
          · split at h3
            · injection h3 with h3
              subst h3
              rfl
            · injection h3 with h3
              subst h3
              rfl

/-- C5 counterexample: with another buffer current, `redraw(True)` returns
with the stale multi-selection intact, so the selection set is not empty
after every forced redraw. -/
theorem C5_foreign_buffer_keeps_selection :
    redraw fsAB stForeign true = Res.ok stForeign ∧
    stForeign.selected_candidates ≠ [] :=
  ⟨by rfl, by decide⟩

def sessCdOut : DefxState :=
  { index := 0, cwd := "/b", cursor_history := [("/a", "/a")] }

/-- The View state produced by the successful demo `cd` of session 0 from
`/a` to `/b`. -/
def stCdOut : ViewState :=
  { defxs := [sessCdOut]
    candidates := [cand "/b" 0, cand "/b/1" 0]
    selected_candidates := []
    cursor_line := 1
    filetype_is_defx := true
    displayed := [cand "/b" 0, cand "/b/1" 0] }

/-- C5 witness: the amended clearing guarantees at concrete inputs — a
forced redraw on the defx buffer and a completing `cd` both leave the
selection set empty. -/
theorem C5_selection_clearing_witness :
    (redraw fsAB stA true = Res.ok stA ∧ stA.selected_candidates = []) ∧
    (cd fsAB stA 0 "/b" 1 = Res.ok stCdOut ∧
      stCdOut.selected_candidates = []) :=
  ⟨⟨by rfl, C5_selection_clearing.1 fsAB stA stA (by rfl) (by rfl)⟩,
   ⟨by rfl, C5_selection_clearing.2 fsAB stA 0 "/b" 1 stCdOut (by rfl)⟩⟩

/-- C4: the rebuilt aggregated sequence is the concatenation, in session
order, of each session's root candidate followed by that session's
flattened descendants in the session's own order; every emitted candidate
carries the owning session's index; and in the two-session `/a`, `/b`
scenario the sequence is the expected five rows with
`locate("/b/1", 1)` returning line 5. -/
theorem C4_aggregation_order :
    (∀ (fs : Fs) (defxs : List DefxState),
      build_candidates fs defxs = (defxs.map (session_candidates fs)).flatten) ∧
    (∀ (fs : Fs) (d : DefxState),
      ∀ c ∈ session_candidates fs d, c.defx_index = d.index) ∧
    candsAB = [cand "/a" 0, cand "/a/1" 0, cand "/a/2" 0,
               cand "/b" 1, cand "/b/1" 1] ∧
    locate candsAB "/b/1" 1 = some 5 := by
  refine ⟨?_, ?_, by decide, by decide⟩
  · intro fs defxs
    induction defxs with
    | nil => rfl
    | cons d rest ih => simp [build_candidates, ih]
  · intro fs d c hc
    simp only [session_candidates, List.mem_map] at hc
    rcases hc with ⟨x, _, rfl⟩
    rfl

/-- C4 witness: the tagging clause at a concrete emitted candidate. -/
theorem C4_aggregation_order_witness :
    (cand "/b/1" 1).defx_index = sessB.index :=
  C4_aggregation_order.2.1 fsAB sessB (cand "/b/1" 1) (by decide)

/-! Lemmas relating `locate` to `get_cursor_candidate`. -/

theorem get_cursor_candidate_found_of_getElem {cands : List Candidate}
    {m : Nat} {c : Candidate} (h1 : 1 ≤ m) (h : cands[m - 1]? = some c) :
    get_cursor_candidate cands m = CursorRes.found c := by
  have hlen : m - 1 < cands.length := by
    by_contra h2
    rw [List.getElem?_eq_none (by omega)] at h
    cases h
  unfold get_cursor_candidate
  rw [if_neg (by omega : ¬ cands.length < m),
    if_neg (by omega : ¬ m = 0), List.get?_eq_getElem?, h]

theorem getElem_of_get_cursor_candidate_found {cands : List Candidate}
    {m : Nat} {c : Candidate} (h1 : 1 ≤ m)
    (h : get_cursor_candidate cands m = CursorRes.found c) :
    cands[m - 1]? = some c := by
  unfold get_cursor_candidate at h
  by_cases hlt : cands.length < m
  · rw [if_pos hlt] at h
    cases h
  · rw [if_neg hlt, if_neg (by omega : ¬ m = 0),
      List.get?_eq_getElem?] at h
    cases hg : cands[m - 1]? with
    | some c2 =>
      rw [hg] at h
      injection h with h
      rw [h]
    | none =>
      rw [hg] at h
      cases h

theorem locate_from_spec (path : String) (index : Nat) :
    ∀ (cands : List Candidate) (k n : Nat),
      locate_from path index cands k = some n →
      k ≤ n ∧
      (∃ c, cands[n - k]? = some c ∧
        c.defx_index = index ∧ c.action_path = path) ∧
      ∀ j, j < n - k → ∀ c, cands[j]? = some c →
        ¬ (c.defx_index = index ∧ c.action_path = path) := by
  intro cands
  induction cands with
  | nil =>
    intro k n h
    cases h
  | cons c0 rest ih =>
    intro k n h
    unfold locate_from at h
    split at h
    · next hmatch =>
      injection h with h
      subst h
      refine ⟨le_refl k, ⟨c0, ?_, hmatch.1, hmatch.2⟩, ?_⟩
      · simp [Nat.sub_self]
      · intro j hj
        omega
    · next hnomatch =>
      obtain ⟨hkn, ⟨c, hc, hci, hcp⟩, hmin⟩ := ih (k + 1) n h
      refine ⟨by omega, ⟨c, ?_, hci, hcp⟩, ?_⟩
      · have hnk : n - k = (n - (k + 1)) + 1 := by omega
        rw [hnk]
        simpa using hc
      · intro j hj c2 hc2 hcon
        cases j with
        | zero =>
          simp only [List.getElem?_cons_zero] at hc2
          injection hc2 with hc2
          subst hc2
          exact hnomatch hcon
        | succ j2 =>
          have hj2 : j2 < n - (k + 1) := by omega
          exact hmin j2 hj2 c2 (by simpa using hc2) hcon

/-- C6: whenever `locate` (search_file's scan) returns a line number,
`get_cursor_candidate` at that line yields a candidate whose path equals
the query and whose owner session index matches; and the scan is a linear
first-match scan, so no earlier line holds a matching candidate. -/
theorem C6_locate_candidateAt_agree (cands : List Candidate) (path : String)
    (index : Nat) (n : Nat) (h : locate cands path index = some n) :
    ∃ c, get_cursor_candidate cands n = CursorRes.found c ∧
      c.action_path = path ∧ c.defx_index = index ∧
      ∀ m c2, 1 ≤ m → m < n →
        get_cursor_candidate cands m = CursorRes.found c2 →
        ¬ (c2.defx_index = index ∧ c2.action_path = path) := by
  obtain ⟨h1n, ⟨c, hc, hci, hcp⟩, hmin⟩ :=
    locate_from_spec path index cands 1 n h
  refine ⟨c, get_cursor_candidate_found_of_getElem h1n hc, hcp, hci, ?_⟩
  intro m c2 hm1 hmn hgcc
  exact hmin (m - 1) (by omega) c2
    (getElem_of_get_cursor_candidate_found hm1 hgcc)

/-- C6 witness: in the two-session scenario, `locate("/b/1", 1)` returns
line 5 and the candidate found there matches the query. -/
theorem C6_locate_candidateAt_agree_witness :
    ∃ c, get_cursor_candidate candsAB 5 = CursorRes.found c ∧
      c.action_path = "/b/1" ∧ c.defx_index = 1 ∧
      ∀ m c2, 1 ≤ m → m < 5 →
        get_cursor_candidate candsAB m = CursorRes.found c2 →
        ¬ (c2.defx_index = 1 ∧ c2.action_path = "/b/1") :=
  C6_locate_candidateAt_agree candsAB "/b/1" 1 5 (by decide)

/-! The dispatch loop. -/

theorem do_action_loop_filterMap (cands : List Candidate) (sel : List Nat)
    (cursor : Nat) :
    ∀ ds : List DefxState,
      (∀ d ∈ ds,
        (get_selected_candidates cands sel cursor d.index).isSome) →
      do_action_loop cands sel cursor ds =
        some (ds.filterMap (fun d =>
          match get_selected_candidates cands sel cursor d.index with
          | some [] => none
          | some ts => some (d.index, ts)
          | none => none)) := by
  intro ds
  induction ds with
  | nil =>
    intro _
    rfl
  | cons d rest ih =>
    intro h
    obtain ⟨ts, hts⟩ := Option.isSome_iff_exists.mp
      (h d (List.mem_cons_self d rest))
    have hrest := ih (fun d2 hd2 => h d2 (List.mem_cons_of_mem d hd2))
    cases ts with
    | nil => simp [do_action_loop, hts, List.filterMap_cons, hrest]
    | cons t ts2 => simp [do_action_loop, hts, List.filterMap_cons, hrest]

/-- An empty aggregated sequence alongside one live session: dispatch
returns before computing any target set. -/
def stEmpty : ViewState :=
  { defxs := [sessA]
    candidates := []
    selected_candidates := []
    cursor_line := 1
    filetype_is_defx := true
    displayed := [] }

/-- C7: dispatch on an empty aggregated sequence is a no-op with zero
Action Dispatcher invocations; on a non-empty sequence, whenever every
session's target computation succeeds, the dispatcher is invoked exactly
once per session whose target set is non-empty, in session order, with
zero-target sessions skipped; but when the cursor line exceeds the
sequence length and there is no multi-selection, the first session's
target computation raises (KeyError on the empty dict at view.py line
155) and dispatch aborts with zero invocations instead of skipping the
zero-target sessions. -/
theorem C7_dispatch_per_session (st : ViewState) (cursor : Nat) :
    (st.candidates = [] → do_action st cursor = some []) ∧
    ((∀ d ∈ st.defxs,
        (get_selected_candidates st.candidates st.selected_candidates cursor
          d.index).isSome) →
      st.candidates ≠ [] → do_action st cursor =
        some (st.defxs.filterMap (fun d =>
          match get_selected_candidates st.candidates st.selected_candidates
              cursor d.index with
          | some [] => none
          | some ts => some (d.index, ts)
          | none => none))) ∧
    (st.candidates ≠ [] → st.defxs ≠ [] → st.selected_candidates = [] →
      st.candidates.length < cursor → do_action st cursor = none) := by
  refine ⟨?_, ?_, ?_⟩
  · intro he
    unfold do_action
    rw [if_pos he]
  · intro h hne
    unfold do_action
    rw [if_neg hne]
    exact do_action_loop_filterMap _ _ _ st.defxs h
  · intro hne hds hsel hcur
    unfold do_action
    rw [if_neg hne]
    cases hd : st.defxs with
    | nil => exact absurd hd hds
    | cons d rest =>
      have habs : get_cursor_candidate st.candidates cursor =
          CursorRes.absent := by
        unfold get_cursor_candidate
        rw [if_pos hcur]
      have hgsc : get_selected_candidates st.candidates
          st.selected_candidates cursor d.index = none := by
        unfold get_selected_candidates
        rw [if_pos hsel, habs]
      unfold do_action_loop
      rw [hgsc]

/-- C7 counterexample: two live sessions, a non-empty five-row sequence,
no multi-selection and cursor line 9 (beyond the sequence length) — per
the spec every session's target set is empty and must be skipped, but
`do_action` aborts with a raised KeyError (modelled `none`), invoking the
Action Dispatcher zero times and not completing. -/
theorem C7_out_of_range_cursor_aborts :
    stAB.candidates ≠ [] ∧ stAB.candidates.length < 9 ∧
    do_action stAB 9 = none :=
  ⟨by decide, by decide, by rfl⟩

/-- C7 witness: the amended behaviour at concrete inputs — the no-op on
an empty sequence with a session present, the exactly-once dispatch for
session 1 when the cursor sits on its root, and the abort at an
out-of-range cursor. -/
theorem C7_dispatch_per_session_witness :
    do_action stEmpty 1 = some [] ∧
    (do_action stAB 4 = some [(1, [cand "/b" 1])] ∧
      do_action stAB 4 =
        some (stAB.defxs.filterMap (fun d =>
          match get_selected_candidates stAB.candidates
              stAB.selected_candidates 4 d.index with
          | some [] => none
          | some ts => some (d.index, ts)
          | none => none))) ∧
    do_action stAB 9 = none :=
  ⟨(C7_dispatch_per_session stEmpty 1).1 (by rfl),
   ⟨by rfl,
    (C7_dispatch_per_session stAB 4).2.1 (by decide) (by decide)⟩,
   (C7_dispatch_per_session stAB 9).2.2 (by decide) (by decide) (by decide)
     (by decide)⟩

/-! Column spans. -/

theorem spans_from_getElem (widths : List Nat) :
    ∀ (s i : Nat), i < widths.length →
      (spans_from s widths)[i]? =
        some (s + (widths.take i).sum,
              s + (widths.take i).sum + widths.getD i 0 - 1) := by
  induction widths with
  | nil =>
    intro s i hi
    exact absurd hi (by simp)
  | cons w ws ih =>
    intro s i hi
    cases i with
    | zero => simp [spans_from]
    | succ j =>
      have hj : j < ws.length := by simpa using hi
      have hrec := ih (s + w) j hj
      simp [spans_from, hrec, Nat.add_assoc]

theorem take_sum_succ (widths : List Nat) (j : Nat)
    (hj : j < widths.length) :
    (widths.take (j + 1)).sum = (widths.take j).sum + widths.getD j 0 := by
  rw [List.sum_take_succ widths j hj]
  congr 1
  simp [List.getD_eq_getElem?_getD, List.getElem?_eq_getElem hj]

/-- C8: the spans computed at View construction are contiguous and
non-overlapping — column `i` starts at one plus the sum of the preceding
widths, the first column starts at offset 1, each next column starts at
the previous column's end offset plus one, and the three-width instance
matches the spec's example spans. -/
theorem C8_column_spans (widths : List Nat) (i : Nat)
    (hi : i < widths.length) :
    (compute_spans widths)[i]? =
      some (start_off widths i, end_off widths i) ∧
    start_off widths 0 = 1 ∧
    (∀ j, j + 1 < widths.length →
      start_off widths (j + 1) = end_off widths j + 1) ∧
    (∀ w0 w1 w2 : Nat, compute_spans [w0, w1, w2] =
      [(1, w0), (w0 + 1, w0 + w1), (w0 + w1 + 1, w0 + w1 + w2)]) := by
  refine ⟨?_, ?_, ?_, ?_⟩
  · have hsp := spans_from_getElem widths 1 i hi
    simpa [compute_spans, start_off, end_off] using hsp
  · simp [start_off]
  · intro j hj
    have hj2 : j < widths.length := by omega
    have hsum := take_sum_succ widths j hj2
    simp only [start_off, end_off]
    rw [hsum]
    omega
  · intro w0 w1 w2
    simp [compute_spans, spans_from]
    omega

/-- C8 witness: widths `[2, 3, 4]` give spans `(1,2), (3,5), (6,9)`. -/
theorem C8_column_spans_witness :
    (compute_spans [2, 3, 4])[1]? =
      some (start_off [2, 3, 4] 1, end_off [2, 3, 4] 1) ∧
    start_off [2, 3, 4] 0 = 1 ∧
    (∀ j, j + 1 < ([2, 3, 4] : List Nat).length →
      start_off [2, 3, 4] (j + 1) = end_off [2, 3, 4] j + 1) ∧
    (∀ w0 w1 w2 : Nat, compute_spans [w0, w1, w2] =
      [(1, w0), (w0 + 1, w0 + w1), (w0 + w1 + 1, w0 + w1 + w2)]) :=
  C8_column_spans [2, 3, 4] 1 (by decide)

/-- C9: on a non-empty aggregated sequence, `get_cursor_candidate 0` does
not return the empty dict: the guard only rejects cursors greater than the
length, and Python index `0 - 1 = -1` selects the last candidate. -/
theorem C9_cursor_zero_last (cands : List Candidate) (c : Candidate)
    (h : cands.getLast? = some c) :
    get_cursor_candidate cands 0 = CursorRes.found c := by
  unfold get_cursor_candidate
  rw [if_neg (by omega : ¬ cands.length < 0), if_pos rfl, h]

/-- C9 witness: cursor line 0 on the five-row demo sequence returns the
last row `/b/1` of session 1. -/
theorem C9_cursor_zero_last_witness :
    get_cursor_candidate candsAB 0 = CursorRes.found (cand "/b/1" 1) :=
  C9_cursor_zero_last candsAB (cand "/b/1" 1) (by decide)

/-! No cursor movement when the scan finds nothing. -/

theorem locate_from_none (path : String) (index : Nat) :
    ∀ (cands : List Candidate) (k : Nat),
      (∀ c ∈ cands, ¬ (c.defx_index = index ∧ c.action_path = path)) →
      locate_from path index cands k = none := by
  intro cands
  induction cands with
  | nil =>
    intro k _
    rfl
  | cons c0 rest ih =>
    intro k h
    unfold locate_from
    rw [if_neg (h c0 (List.mem_cons_self c0 rest))]
    exact ih (k + 1) (fun c hc => h c (List.mem_cons_of_mem c0 hc))

/-- C10: when no candidate of the aggregated sequence matches the query,
`search_file` performs no cursor movement at all — the whole View state,
the host cursor position included, is exactly what it was. -/
theorem C10_search_file_no_match (st : ViewState) (path : String)
    (index : Nat)
    (h : ∀ c ∈ st.candidates,
      ¬ (c.defx_index = index ∧ c.action_path = path)) :
    search_file st path index = st := by
  unfold search_file locate
  rw [locate_from_none path index st.candidates 1 h]

/-- C10 witness: searching for an absent path leaves the state intact. -/
theorem C10_search_file_no_match_witness :
    search_file stAB "/zzz" 0 = stAB :=
  C10_search_file_no_match stAB "/zzz" 0 (by decide)

end DefxView
